import Mathlib

/-!
Verification of the NudgeKit sleep-statistics engine.

Shallow embedding of the core logic of `src/App.tsx` (feature derivation,
baseline/drift calculation, risk classification, CSV ingestion) and of
`src/storage.ts` (the storage-variant feature deriver and the by-date
upsert).  JavaScript numbers that hold epoch milliseconds / minutes are
modelled as `Int`; `Math.floor` on a quotient of integers is `Int.fdiv`;
`Math.round` (half toward +infinity) is modelled explicitly.  ISO-8601
timestamp parsing (`new Date(iso).getTime()`) is not re-implemented: the
functions that need it take the parse as an explicit `String → Int`
argument giving the epoch milliseconds of each timestamp string.
-/

/-- Raw night record from `src/storage.ts` (`Night`): a calendar-date key
and two ISO timestamp strings, kept opaque. -/
structure Night where
  date : String
  sleep_start : String
  sleep_end : String
deriving DecidableEq

/-- Derived night from `src/storage.ts` (`DerivedNight`): the raw record
plus duration in minutes and the midsleep point in minutes since epoch. -/
structure DerivedNight extends Night where
  duration_min : Int
  midsleep_min_epoch : Int
deriving DecidableEq

/-- Constant `BASELINE_WINDOW_DAYS` from `src/App.tsx`. -/
def BASELINE_WINDOW_DAYS : Nat := 7

/-- Constant `DRIFT_THRESHOLD_MIN` from `src/App.tsx`. -/
def DRIFT_THRESHOLD_MIN : Int := 90

/-- Helper `toMinutes` from `src/App.tsx`: `Math.floor(d.getTime() / 60000)`
on the epoch milliseconds of a date. -/
def toMinutes (ms : Int) : Int := Int.fdiv ms 60000

/-- Function `derive` from `src/App.tsx` (lines 307-315).  `fromISOms`
stands for `new Date(iso).getTime()`: it maps a timestamp string to its
epoch milliseconds. -/
def derive (fromISOms : String → Int) (n : Night) : DerivedNight :=
  let startMin := toMinutes (fromISOms n.sleep_start)
  let endMin := toMinutes (fromISOms n.sleep_end)
  let duration_min := max 0 (endMin - startMin)
  let midsleep_min_epoch := startMin + Int.fdiv duration_min 2
  { toNight := n, duration_min := duration_min, midsleep_min_epoch := midsleep_min_epoch }

/-- Stats snapshot returned by `summarize` in `src/App.tsx`. -/
structure Stats where
  coverage : Nat
  baselineMid : Option Int
  recentLateness : Int
  regularityLoss : Int
  drift : Bool
deriving DecidableEq

/-- Function `summarize` from `src/App.tsx` (lines 317-353). -/
def summarize (derived : List DerivedNight) : Stats :=
  let lastN := derived.take BASELINE_WINDOW_DAYS
  let coverage := lastN.length
  let baselineMid : Option Int :=
    if 0 < coverage then
      some (Int.fdiv ((lastN.map (fun d => d.midsleep_min_epoch)).sum) (coverage : Int))
    else none
  let recentLateness : Int :=
    match baselineMid, lastN.head? with
    | some b, some last => last.midsleep_min_epoch - b
    | _, _ => 0
  let regularityLoss : Int :=
    if 1 < coverage then
      ((lastN.map (fun d =>
        |d.midsleep_min_epoch - (baselineMid.getD d.midsleep_min_epoch)|)).sum)
    else 0
  let drift : Bool := baselineMid.isSome && decide (DRIFT_THRESHOLD_MIN ≤ |recentLateness|)
  { coverage := coverage, baselineMid := baselineMid, recentLateness := recentLateness,
    regularityLoss := regularityLoss, drift := drift }

/-- Risk labels produced by the classifier in `src/App.tsx` (lines 677-682):
the source renders them as the strings "Insufficient data (need ≥ 3 nights)",
"HIGH (nudge would fire)" and "LOW". -/
inductive RiskLabel where
  | INSUFFICIENT_DATA
  | HIGH
  | LOW
deriving DecidableEq

/-- Classifier `riskLabel` from `src/App.tsx` (lines 677-682):
`stats.coverage < 3 ? "Insufficient data…" : stats.drift ? "HIGH…" : "LOW"`. -/
def riskLabel (stats : Stats) : RiskLabel :=
  if stats.coverage < 3 then .INSUFFICIENT_DATA
  else if stats.drift then .HIGH
  else .LOW

/-- Helper for building a `DerivedNight` with a given midsleep value, used
to state concrete scenarios about `summarize` (which reads only
`midsleep_min_epoch`). -/
def mkMid (m : Int) : DerivedNight :=
  { date := "", sleep_start := "", sleep_end := "", duration_min := 0,
    midsleep_min_epoch := m }

/-! CSV ingestion (`parseCsvToNights`, `src/App.tsx` lines 357-402).
JavaScript strings are handled through their character lists.  The source
splits on the pattern CR?LF and then trims each line; splitting on LF alone
and trimming gives the same line list, since a trailing CR is whitespace
removed by the trim. -/

/-- Splitting of a character list on a separator character, modelling
JavaScript `String.prototype.split` with a one-character separator
(an empty string yields one empty field, a trailing separator yields a
trailing empty field). -/
def splitOnChar (c : Char) : List Char → List (List Char)
  | [] => [[]]
  | a :: as =>
    let r := splitOnChar c as
    if a = c then [] :: r
    else
      match r with
      | [] => [[a]]
      | h :: t => (a :: h) :: t

/-- Modelling of `String.prototype.trim`: drop whitespace characters from
both ends. -/
def trimChars (l : List Char) : List Char :=
  ((l.dropWhile Char.isWhitespace).reverse.dropWhile Char.isWhitespace).reverse

/-- Modelling of `String.prototype.toLowerCase` on the ASCII column names. -/
def toLowerChars (l : List Char) : List Char := l.map Char.toLower

/-- Modelling of `Array.prototype.indexOf` on the header fields: the first
index holding the value, if any (the source encodes absence as -1). -/
def indexOfField (x : List Char) : List (List Char) → Option Nat
  | [] => none
  | y :: ys => if y = x then some 0 else (indexOfField x ys).map (fun i => i + 1)

/-- Line preprocessing of `parseCsvToNights`: split the input into lines,
trim each, and keep the non-blank ones. -/
def nonBlankLines (csv : String) : List (List Char) :=
  ((splitOnChar '\n' csv.data).map trimChars).filter (fun l => ¬ l = [])

/-- Error kinds of `parseCsvToNights`; the source throws `Error` values
with the messages "CSV file has no data rows." (`NoDataRows`), "CSV must
have columns: date,sleep_start,sleep_end (any order)." (`MalformedHeader`)
and "No valid rows found in CSV." (`NoValidRows`). -/
inductive CsvError where
  | MalformedHeader
  | NoDataRows
  | NoValidRows
deriving DecidableEq

/-- Row loop of `parseCsvToNights` (`for (let i = 1; ...)`) over the
non-blank data lines: a row is skipped when empty, when it has fewer
fields than the header, or when a required field trims to empty; otherwise
its trimmed required fields are pushed as a `Night`. -/
def csvRows (hlen iD iS iE : Nat) : List (List Char) → List Night
  | [] => []
  | r :: rs =>
    if r = [] then csvRows hlen iD iS iE rs
    else
      let parts := splitOnChar ',' r
      if parts.length < hlen then csvRows hlen iD iS iE rs
      else
        let date := trimChars (parts.getD iD [])
        let s := trimChars (parts.getD iS [])
        let e := trimChars (parts.getD iE [])
        if date = [] ∨ s = [] ∨ e = [] then csvRows hlen iD iS iE rs
        else
          { date := String.mk date, sleep_start := String.mk s,
            sleep_end := String.mk e } :: csvRows hlen iD iS iE rs

/-- Header normalisation of `parseCsvToNights`: split the header line on
commas, trim and lowercase each column name. -/
def headerFields (hdr : List Char) : List (List Char) :=
  (splitOnChar ',' hdr).map (fun x => toLowerChars (trimChars x))

/-- Header handling and row collection of `parseCsvToNights`, given the
header line and the non-blank data lines. -/
def parseWithHeader (hdr : List Char) (rows : List (List Char)) :
    Except CsvError (List Night) :=
  match indexOfField ("date".data) (headerFields hdr),
        indexOfField ("sleep_start".data) (headerFields hdr),
        indexOfField ("sleep_end".data) (headerFields hdr) with
  | some iD, some iS, some iE =>
    let nights := csvRows (headerFields hdr).length iD iS iE rows
    if nights = [] then .error .NoValidRows else .ok nights
  | _, _, _ => .error .MalformedHeader

/-- Function `parseCsvToNights` from `src/App.tsx` (lines 357-402).  The
`lines.length <= 1` check (`NoDataRows`) precedes the header check. -/
def parseCsvToNights (csv : String) : Except CsvError (List Night) :=
  match nonBlankLines csv with
  | [] => .error .NoDataRows
  | [_] => .error .NoDataRows
  | hdr :: r1 :: rest => parseWithHeader hdr (r1 :: rest)

/-- Predicate (written from the claim) deciding whether a data row is kept
by `parseCsvToNights`: at least as many comma-separated fields as the
header, and a non-empty trimmed value in each required column. -/
def keepRow (hlen iD iS iE : Nat) (r : List Char) : Bool :=
  let parts := splitOnChar ',' r
  decide (hlen ≤ parts.length) &&
    decide (¬ trimChars (parts.getD iD []) = []) &&
    decide (¬ trimChars (parts.getD iS []) = []) &&
    decide (¬ trimChars (parts.getD iE []) = [])

/-- Extraction (written from the claim) of the `Night` a kept data row
yields: the trimmed values of the three required columns. -/
def extractRow (iD iS iE : Nat) (r : List Char) : Night :=
  let parts := splitOnChar ',' r
  { date := String.mk (trimChars (parts.getD iD [])),
    sleep_start := String.mk (trimChars (parts.getD iS [])),
    sleep_end := String.mk (trimChars (parts.getD iE [])) }

namespace Storage

/-- Helper `toMin` from `src/storage.ts`: `Math.round(ms / 60000)`.
JavaScript `Math.round` rounds half toward +infinity, which on an exact
rational a/b (b > 0) is `⌊(2a + b) / (2b)⌋`. -/
def toMin (ms : Int) : Int := Int.fdiv (2 * ms + 60000) (2 * 60000)

/-- Rounding `Math.round(d / 2)` on an integer `d`, as used by the storage
variant of `derive`: `⌊(d + 1) / 2⌋`. -/
def roundHalf (d : Int) : Int := Int.fdiv (d + 1) 2

/-- Function `derive` from `src/storage.ts` (lines 33-39): minute
conversion rounds instead of flooring, the duration is clamped to at least
1, and the midsleep offset is `Math.round(durationMin / 2)`. -/
def derive (fromISOms : String → Int) (n : Night) : DerivedNight :=
  let startMin := toMin (fromISOms n.sleep_start)
  let endMin := toMin (fromISOms n.sleep_end)
  let durationMin := max 1 (endMin - startMin)
  let midsleepMin := startMin + roundHalf durationMin
  { toNight := n, duration_min := durationMin, midsleep_min_epoch := midsleepMin }

/-- Modelling of `Array.prototype.findIndex`: the index of the first
element satisfying the predicate (the source encodes absence as -1). -/
def findIndex (p : Night → Bool) : List Night → Option Nat
  | [] => none
  | a :: l => if p a then some 0 else (findIndex p l).map (fun i => i + 1)

/-- Function `upsertNight` from `src/storage.ts` (lines 49-53): replace the
first entry whose date equals the new night's date, else append. -/
def upsertNight (mem : List Night) (n : Night) : List Night :=
  match findIndex (fun x => x.date == n.date) mem with
  | some i => mem.set i n
  | none => mem ++ [n]

end Storage

/-- Decidable equality on `Except`, so that concrete runs of the CSV parser
can be checked by evaluation. -/
instance {ε α : Type} [DecidableEq ε] [DecidableEq α] : DecidableEq (Except ε α) := fun x y =>
  match x, y with
  | .ok a, .ok b =>
    if h : a = b then isTrue (by rw [h]) else isFalse (by simp [h])
  | .error a, .error b =>
    if h : a = b then isTrue (by rw [h]) else isFalse (by simp [h])
  | .ok _, .error _ => isFalse (by simp)
  | .error _, .ok _ => isFalse (by simp)

/-! Theorems about the embedded program. -/

/-- C1: for every RawNight whose `sleep_end` is after `sleep_start` by D
minutes — D being the difference of the two timestamps converted to
integer minutes since epoch — `derive` returns `duration_min = D` and
`midsleep_min_epoch = start minutes + ⌊D / 2⌋`. -/
theorem derive_duration_midsleep (fromISOms : String → Int) (n : Night) (D : Int)
    (hD : 0 < D)
    (h : toMinutes (fromISOms n.sleep_end) - toMinutes (fromISOms n.sleep_start) = D) :
    (derive fromISOms n).duration_min = D ∧
      (derive fromISOms n).midsleep_min_epoch =
        toMinutes (fromISOms n.sleep_start) + Int.fdiv D 2 := by
  have hmax : max 0 (toMinutes (fromISOms n.sleep_end) - toMinutes (fromISOms n.sleep_start)) = D := by
    rw [h]; exact max_eq_right hD.le
  constructor
  · show max 0 _ = D
    exact hmax
  · show toMinutes (fromISOms n.sleep_start) + Int.fdiv (max 0 _) 2 = _
    rw [hmax]

/-- Witness for C1: a night that starts at epoch millisecond 0 and ends 3
minutes later has duration 3 and midsleep at minute 1. -/
theorem derive_duration_midsleep_witness :
    (derive (fun s => if s = "e" then 180000 else 0) ⟨"d", "s", "e"⟩).duration_min = 3 ∧
      (derive (fun s => if s = "e" then 180000 else 0) ⟨"d", "s", "e"⟩).midsleep_min_epoch =
        toMinutes ((fun s => if s = "e" then 180000 else 0) "s") + Int.fdiv 3 2 :=
  derive_duration_midsleep (fun s => if s = "e" then 180000 else 0) ⟨"d", "s", "e"⟩ 3
    (by decide) (by decide)

/-- C2: on the empty window `summarize` returns coverage 0, a null
baseline, zero lateness and regularity loss, and no drift. -/
theorem summarize_empty :
    summarize [] =
      { coverage := 0, baselineMid := none, recentLateness := 0,
        regularityLoss := 0, drift := false } := by
  decide

/-- C3: the risk classifier returns `INSUFFICIENT_DATA` exactly when
coverage < 3 (whatever the drift flag), `HIGH` exactly when coverage ≥ 3
and drift holds, and `LOW` exactly when coverage ≥ 3 and drift fails. -/
theorem riskLabel_cases (s : Stats) :
    (riskLabel s = .INSUFFICIENT_DATA ↔ s.coverage < 3) ∧
      (riskLabel s = .HIGH ↔ 3 ≤ s.coverage ∧ s.drift = true) ∧
      (riskLabel s = .LOW ↔ 3 ≤ s.coverage ∧ s.drift = false) := by
  unfold riskLabel
  by_cases h : s.coverage < 3 <;> by_cases hd : s.drift = true <;>
    simp [h, hd] <;> omega

/-- C5: on the 7-night window whose most recent midsleep is 690 and whose
six older midsleeps are all 480 (minutes), `summarize` returns baseline
510, recent lateness 180, and drift. -/
theorem summarize_seven_night_scenario :
    (summarize [mkMid 690, mkMid 480, mkMid 480, mkMid 480, mkMid 480,
        mkMid 480, mkMid 480]).baselineMid = some 510 ∧
      (summarize [mkMid 690, mkMid 480, mkMid 480, mkMid 480, mkMid 480,
        mkMid 480, mkMid 480]).recentLateness = 180 ∧
      (summarize [mkMid 690, mkMid 480, mkMid 480, mkMid 480, mkMid 480,
        mkMid 480, mkMid 480]).drift = true := by
  decide

/-- C8: for every RawNight with `sleep_end` at or before `sleep_start`,
both feature derivers clamp the non-positive raw duration and return a
non-negative `duration_min`. -/
theorem derive_clamps_duration (fromISOms : String → Int) (n : Night)
    (_h : fromISOms n.sleep_end ≤ fromISOms n.sleep_start) :
    0 ≤ (derive fromISOms n).duration_min ∧
      0 ≤ (Storage.derive fromISOms n).duration_min := by
  constructor
  · show (0 : Int) ≤ max 0 _
    exact le_max_left _ _
  · show (0 : Int) ≤ max 1 _
    exact le_trans zero_le_one (le_max_left _ _)

/-- Witness for C8: a night that ends one minute before it starts has
non-negative duration under both derivers. -/
theorem derive_clamps_duration_witness :
    0 ≤ (derive (fun s => if s = "s" then 60000 else 0) ⟨"d", "s", "e"⟩).duration_min ∧
      0 ≤ (Storage.derive (fun s => if s = "s" then 60000 else 0) ⟨"d", "s", "e"⟩).duration_min :=
  derive_clamps_duration (fun s => if s = "s" then 60000 else 0) ⟨"d", "s", "e"⟩ (by decide)

/-- C10: `summarize` truncates its input to the most recent
`BASELINE_WINDOW_DAYS` (7) entries itself, so nights beyond the window
never influence the returned stats. -/
theorem summarize_window_truncation (d : List DerivedNight) :
    summarize d = summarize (d.take BASELINE_WINDOW_DAYS) := by
  simp [summarize, List.take_take]

/-- Counterexample to C4 as stated: in the two-night window with midsleeps
[570, 480] (most recent first), the most recent midsleep is exactly
`DRIFT_THRESHOLD_MIN` (90) minutes later than the floor-mean of the other
nights (480), yet `summarize` reports no drift — the baseline includes the
most recent night, so the recent lateness is only 45. -/
theorem summarize_mean_of_others_cex :
    (mkMid 570).midsleep_min_epoch =
        Int.fdiv (([mkMid 480].map (fun d => d.midsleep_min_epoch)).sum)
          (([mkMid 480] : List DerivedNight).length) + DRIFT_THRESHOLD_MIN ∧
      (summarize [mkMid 570, mkMid 480]).recentLateness = 45 ∧
      (summarize [mkMid 570, mkMid 480]).drift = false := by
  decide

/-- C4 amended: for every non-empty window whose most recent night's
midsleep is exactly `DRIFT_THRESHOLD_MIN` (90) minutes later than the
baseline — the floor-mean of the midsleeps of ALL nights in the window,
the most recent included — `summarize` reports drift (the comparison is
inclusive, ≥). -/
theorem summarize_drift_at_threshold (d : DerivedNight) (w : List DerivedNight) (b : Int)
    (hb : (summarize (d :: w)).baselineMid = some b)
    (h90 : d.midsleep_min_epoch = b + DRIFT_THRESHOLD_MIN) :
    (summarize (d :: w)).drift = true := by
  have ht : (d :: w).take BASELINE_WINDOW_DAYS = d :: w.take 6 := rfl
  simp only [summarize, ht, List.length_cons, List.head?_cons, Nat.zero_lt_succ,
    if_true, Option.isSome_some, Bool.true_and] at hb ⊢
  simp only [Option.some.injEq] at hb
  rw [hb, h90]
  simp [DRIFT_THRESHOLD_MIN]

/-- Witness for the amended C4: the window [600, 480, 450] has baseline
510 and its most recent midsleep 600 is exactly 90 minutes later, so
drift fires. -/
theorem summarize_drift_at_threshold_witness :
    (summarize [mkMid 600, mkMid 480, mkMid 450]).drift = true :=
  summarize_drift_at_threshold (mkMid 600) [mkMid 480, mkMid 450] 510
    (by decide) (by decide)

/-- Unfolding of `Storage.upsertNight` on a cons cell: replace the head if
its date matches, otherwise keep the head and upsert into the tail. -/
theorem upsertNight_cons (a : Night) (l : List Night) (n : Night) :
    Storage.upsertNight (a :: l) n =
      if a.date = n.date then n :: l else a :: Storage.upsertNight l n := by
  unfold Storage.upsertNight
  by_cases h : a.date = n.date
  · simp [Storage.findIndex, h]
  · simp only [Storage.findIndex, beq_iff_eq, h, if_false]
    cases hf : Storage.findIndex (fun x => x.date == n.date) l with
    | none => simp
    | some i => simp

/-- If no stored night has the new night's date, the upsert appends. -/
theorem upsertNight_append_of_fresh (l : List Night) (n : Night)
    (h : ∀ m ∈ l, m.date ≠ n.date) :
    Storage.upsertNight l n = l ++ [n] := by
  induction l with
  | nil => rfl
  | cons a as ih =>
    rw [upsertNight_cons]
    have ha : a.date ≠ n.date := h a (List.mem_cons_self a as)
    rw [if_neg ha, ih (fun m hm => h m (List.mem_cons_of_mem a hm))]
    rfl

/-- Every date in the upserted store is the new date or an old date. -/
theorem upsertNight_dates_subset (l : List Night) (n : Night) :
    ∀ x ∈ (Storage.upsertNight l n).map Night.date,
      x = n.date ∨ x ∈ l.map Night.date := by
  induction l with
  | nil =>
    intro x hx
    simp [Storage.upsertNight, Storage.findIndex] at hx
    exact Or.inl hx
  | cons a as ih =>
    intro x hx
    rw [upsertNight_cons] at hx
    by_cases h : a.date = n.date
    · rw [if_pos h] at hx
      simp only [List.map_cons, List.mem_cons] at hx ⊢
      rcases hx with hx | hx
      · exact Or.inl hx
      · exact Or.inr (Or.inr hx)
    · rw [if_neg h] at hx
      simp only [List.map_cons, List.mem_cons] at hx ⊢
      rcases hx with hx | hx
      · exact Or.inr (Or.inl hx)
      · rcases ih x hx with hx' | hx'
        · exact Or.inl hx'
        · exact Or.inr (Or.inr hx')

/-- Replacing by date is the identity on a list free of that date. -/
theorem map_replace_of_fresh (l : List Night) (n : Night)
    (h : ∀ m ∈ l, m.date ≠ n.date) :
    l.map (fun m => if m.date = n.date then n else m) = l := by
  induction l with
  | nil => rfl
  | cons a as ih =>
    simp only [List.map_cons]
    rw [if_neg (h a (List.mem_cons_self a as)),
      ih (fun m hm => h m (List.mem_cons_of_mem a hm))]

/-- C9: on a store whose dates are pairwise distinct, `upsertNight` keeps
the dates pairwise distinct; when no entry has the new date it appends,
and when one does it replaces exactly the same-date entry in place,
leaving every other entry unchanged. -/
theorem upsertNight_keyed_by_date (mem : List Night) (n : Night)
    (hnd : (mem.map Night.date).Nodup) :
    ((Storage.upsertNight mem n).map Night.date).Nodup ∧
      ((∀ m ∈ mem, m.date ≠ n.date) → Storage.upsertNight mem n = mem ++ [n]) ∧
      ((∃ m ∈ mem, m.date = n.date) →
        Storage.upsertNight mem n =
          mem.map (fun m => if m.date = n.date then n else m)) := by
  refine ⟨?_, fun h => upsertNight_append_of_fresh mem n h, ?_⟩
  · induction mem with
    | nil =>
      simp [Storage.upsertNight, Storage.findIndex]
    | cons a as ih =>
      rw [List.map_cons, List.nodup_cons] at hnd
      rw [upsertNight_cons]
      by_cases h : a.date = n.date
      · rw [if_pos h, List.map_cons, List.nodup_cons]
        exact ⟨by rw [← h]; exact hnd.1, hnd.2⟩
      · rw [if_neg h, List.map_cons, List.nodup_cons]
        refine ⟨fun hc => ?_, ih hnd.2⟩
        rcases upsertNight_dates_subset as n a.date hc with h' | h'
        · exact h h'
        · exact hnd.1 h'
  · intro hex
    induction mem with
    | nil =>
      rcases hex with ⟨m, hm, _⟩
      exact absurd hm (List.not_mem_nil m)
    | cons a as ih =>
      rw [List.map_cons, List.nodup_cons] at hnd
      rw [upsertNight_cons, List.map_cons]
      by_cases h : a.date = n.date
      · rw [if_pos h, if_pos h]
        have hfresh : ∀ m ∈ as, m.date ≠ n.date := by
          intro m hm he
          exact hnd.1 (by rw [h, ← he]; exact List.mem_map_of_mem Night.date hm)
        rw [map_replace_of_fresh as n hfresh]
      · rw [if_neg h, if_neg h]
        have hex' : ∃ m ∈ as, m.date = n.date := by
          rcases hex with ⟨m, hm, he⟩
          rcases List.mem_cons.mp hm with rfl | hm'
          · exact absurd he h
          · exact ⟨m, hm', he⟩
        rw [ih hnd.2 hex']

/-- Witness for C9: upserting a night dated "2024-01-02" into a two-night
store replaces the same-date entry and keeps dates distinct. -/
theorem upsertNight_keyed_by_date_witness :
    (((Storage.upsertNight [⟨"2024-01-01", "a", "b"⟩, ⟨"2024-01-02", "c", "d"⟩]
        ⟨"2024-01-02", "e", "f"⟩).map Night.date).Nodup ∧
      ((∀ m ∈ ([⟨"2024-01-01", "a", "b"⟩, ⟨"2024-01-02", "c", "d"⟩] : List Night),
          m.date ≠ "2024-01-02") →
        Storage.upsertNight [⟨"2024-01-01", "a", "b"⟩, ⟨"2024-01-02", "c", "d"⟩]
          ⟨"2024-01-02", "e", "f"⟩ =
          [⟨"2024-01-01", "a", "b"⟩, ⟨"2024-01-02", "c", "d"⟩] ++ [⟨"2024-01-02", "e", "f"⟩]) ∧
      ((∃ m ∈ ([⟨"2024-01-01", "a", "b"⟩, ⟨"2024-01-02", "c", "d"⟩] : List Night),
          m.date = "2024-01-02") →
        Storage.upsertNight [⟨"2024-01-01", "a", "b"⟩, ⟨"2024-01-02", "c", "d"⟩]
          ⟨"2024-01-02", "e", "f"⟩ =
          ([⟨"2024-01-01", "a", "b"⟩, ⟨"2024-01-02", "c", "d"⟩] : List Night).map
            (fun m => if m.date = ("2024-01-02" : String) then ⟨"2024-01-02", "e", "f"⟩ else m))) :=
  upsertNight_keyed_by_date [⟨"2024-01-01", "a", "b"⟩, ⟨"2024-01-02", "c", "d"⟩]
    ⟨"2024-01-02", "e", "f"⟩ (by decide)

/-- Counterexample to C6 as stated: the one-line input "date,sleep_start"
has a first non-blank line lacking the required `sleep_end` column, yet
`parseCsvToNights` fails with `NoDataRows`, not `MalformedHeader` — the
`lines.length <= 1` check runs before the header check. -/
theorem parseCsv_single_line_cex :
    indexOfField ("sleep_end".data)
        (headerFields ((nonBlankLines "date,sleep_start").headD [])) = none ∧
      parseCsvToNights "date,sleep_start" = .error .NoDataRows ∧
      ¬ parseCsvToNights "date,sleep_start" = .error .MalformedHeader := by
  decide

/-- C6 amended: for every CSV input with at least two non-blank lines
whose first non-blank line lacks any of the required columns `date`,
`sleep_start`, `sleep_end` (matched case-insensitively, any order),
`parseCsvToNights` fails with `MalformedHeader` and returns no nights at
all.  Inputs with at most one non-blank line fail earlier with
`NoDataRows`. -/
theorem parseCsv_malformed_header (csv : String) (hdr r1 : List Char)
    (rest : List (List Char))
    (hl : nonBlankLines csv = hdr :: r1 :: rest)
    (hmiss : indexOfField ("date".data) (headerFields hdr) = none ∨
      indexOfField ("sleep_start".data) (headerFields hdr) = none ∨
      indexOfField ("sleep_end".data) (headerFields hdr) = none) :
    parseCsvToNights csv = .error .MalformedHeader := by
  unfold parseCsvToNights
  rw [hl]
  show parseWithHeader hdr (r1 :: rest) = .error .MalformedHeader
  unfold parseWithHeader
  split
  · rename_i iD iS iE hD hS hE
    exfalso
    rcases hmiss with hm | hm | hm <;> simp_all
  · rfl

/-- Witness for the amended C6: a two-line input missing the `sleep_end`
column fails with `MalformedHeader`. -/
theorem parseCsv_malformed_header_witness :
    parseCsvToNights "date,sleep_start\nx,y" = .error .MalformedHeader :=
  parseCsv_malformed_header "date,sleep_start\nx,y" ("date,sleep_start".data)
    ("x,y".data) [] (by decide) (Or.inr (Or.inr (by decide)))

/-- Row loop of `parseCsvToNights` as a filter-and-map: the loop keeps, in
input order, exactly the rows accepted by `keepRow` and extracts their
trimmed required fields. -/
theorem csvRows_eq_filter (hlen iD iS iE : Nat) (rs : List (List Char)) :
    csvRows hlen iD iS iE rs =
      (rs.filter (keepRow hlen iD iS iE)).map (extractRow iD iS iE) := by
  induction rs with
  | nil => rfl
  | cons r rest ih =>
    simp only [csvRows, List.filter_cons]
    by_cases hr : r = []
    · subst hr
      have hget : ∀ j : Nat, ([[]] : List (List Char)).getD j [] = [] := by
        intro j; cases j <;> rfl
      have hkeep : keepRow hlen iD iS iE [] = false := by
        simp [keepRow, splitOnChar, hget, trimChars]
      simp [hkeep, ih]
    · simp only [hr, if_false]
      by_cases hlt : (splitOnChar ',' r).length < hlen
      · have hkeep : keepRow hlen iD iS iE r = false := by
          simp [keepRow, Nat.not_le.mpr hlt]
        simp [hlt, hkeep, ih]
      · by_cases hD : trimChars ((splitOnChar ',' r)[iD]?.getD []) = []
        · have hkeep : keepRow hlen iD iS iE r = false := by
            simp [keepRow, hD]
          simp [hlt, hD, hkeep, ih]
        · by_cases hS : trimChars ((splitOnChar ',' r)[iS]?.getD []) = []
          · have hkeep : keepRow hlen iD iS iE r = false := by
              simp [keepRow, hS]
            simp [hlt, hD, hS, hkeep, ih]
          · by_cases hE : trimChars ((splitOnChar ',' r)[iE]?.getD []) = []
            · have hkeep : keepRow hlen iD iS iE r = false := by
                simp [keepRow, hE]
              simp [hlt, hD, hS, hE, hkeep, ih]
            · have hkeep : keepRow hlen iD iS iE r = true := by
                simp [keepRow, Nat.le_of_not_lt hlt, hD, hS, hE]
              simp [hlt, hD, hS, hE, hkeep, extractRow, ih]

/-- C7: on a CSV input whose first non-blank line is a valid header,
`parseCsvToNights` fails with `NoDataRows` when there is no further
non-blank line; otherwise it returns, in input order, exactly the data
rows with at least as many comma-separated fields as the header and a
non-empty trimmed value in each required column — all other rows are
silently skipped — and fails with `NoValidRows` exactly when every data
row was skipped. -/
theorem parseCsv_valid_header_spec (csv : String) (hdr : List Char)
    (rows : List (List Char)) (iD iS iE : Nat)
    (hl : nonBlankLines csv = hdr :: rows)
    (hD : indexOfField ("date".data) (headerFields hdr) = some iD)
    (hS : indexOfField ("sleep_start".data) (headerFields hdr) = some iS)
    (hE : indexOfField ("sleep_end".data) (headerFields hdr) = some iE) :
    (rows = [] → parseCsvToNights csv = .error .NoDataRows) ∧
      (rows ≠ [] →
        parseCsvToNights csv =
          (if (rows.filter (keepRow (headerFields hdr).length iD iS iE)).map
              (extractRow iD iS iE) = []
           then .error .NoValidRows
           else .ok ((rows.filter (keepRow (headerFields hdr).length iD iS iE)).map
              (extractRow iD iS iE)))) := by
  constructor
  · rintro rfl
    unfold parseCsvToNights
    rw [hl]
  · intro hne
    obtain ⟨r1, rest, rfl⟩ : ∃ a l, rows = a :: l := by
      cases rows with
      | nil => exact absurd rfl hne
      | cons a l => exact ⟨a, l, rfl⟩
    unfold parseCsvToNights
    rw [hl]
    show parseWithHeader hdr (r1 :: rest) = _
    unfold parseWithHeader
    rw [hD, hS, hE]
    simp only [csvRows_eq_filter]

/-- Witness for C7: a valid-header input with one keepable row, one row of
empty fields and one short row yields exactly the keepable row. -/
theorem parseCsv_valid_header_spec_witness :
    parseCsvToNights "date,sleep_start,sleep_end\na,b,c\n,,\nshort" =
      .ok [⟨"a", "b", "c"⟩] := by
  have h := (parseCsv_valid_header_spec "date,sleep_start,sleep_end\na,b,c\n,,\nshort"
    ("date,sleep_start,sleep_end".data)
    [("a,b,c".data), (",,".data), ("short".data)] 0 1 2
    (by decide) (by decide) (by decide) (by decide)).2 (by decide)
  rw [h]
  decide
